import Mathlib

/-!
Shallow embedding of the hierarchy-store logic of the valesis file-link
organizer (Dashboard component): an in-memory tree of groups, subgroups and
file entries kept in React state and synchronized against a remote table
service.  Each handler of the source is embedded as a pure function from the
component state (plus the remote call's outcome, passed as an oracle
argument) to the next state together with the list of remote operations it
performed.  Theorems about the claims of the specification follow the
definitions.
-/

namespace Valesis

/-- Record of the groups table (types/database.ts). -/
structure Group where
  id : String
  name : String
  user_id : String
  created_at : String
  deriving DecidableEq, Repr

/-- Record of the subgroups table (types/database.ts). -/
structure Subgroup where
  id : String
  name : String
  group_id : String
  user_id : String
  created_at : String
  deriving DecidableEq, Repr

/-- Record of the files table (types/database.ts). -/
structure File where
  id : String
  name : String
  link : String
  subgroup_id : String
  user_id : String
  created_at : String
  deriving DecidableEq, Repr

/-- SubgroupWithDetails: a subgroup record extended with its nested files and
the local expansion flag (Dashboard.tsx). -/
structure SubgroupWithDetails extends Subgroup where
  files : List File
  isExpanded : Bool
  deriving DecidableEq, Repr

/-- GroupWithDetails: a group record extended with its nested subgroups and
the local expansion flag (Dashboard.tsx). -/
structure GroupWithDetails extends Group where
  subgroups : List SubgroupWithDetails
  isExpanded : Bool
  deriving DecidableEq, Repr

/-- The React state of the Dashboard component: the nested tree plus the
form inputs, the selection, error, session and connectivity flags. -/
structure DashboardState where
  groups : List GroupWithDetails
  newGroupName : String
  selectedGroup : Option String
  selectedSubgroup : Option String
  newFileName : String
  newFileLink : String
  addingSubgroupTo : Option String
  newSubgroupName : String
  isLoading : Bool
  error : Option String
  userId : Option String
  copiedLink : Option String
  isConnected : Bool
  deriving DecidableEq, Repr

/-- Outcome of a remote request, passed to each handler as an oracle: the
supabase call either resolves with data or rejects. -/
inductive RemoteResult (α : Type) where
  | ok (data : α)
  | err
  deriving DecidableEq, Repr

/-- The remote operations a handler can issue against the table service,
with the payloads the source sends. -/
inductive RemoteOp where
  | selectGroups
  | selectSubgroups
  | selectFiles
  | insertGroup (name user_id : String)
  | insertSubgroup (name group_id user_id : String)
  | insertFile (name link subgroup_id user_id : String)
  | deleteGroup (id : String)
  | deleteSubgroup (id : String)
  | deleteFile (id : String)
  deriving DecidableEq, Repr

/-- JavaScript truthiness of a nullable string: null and the empty string
are falsy, every other string is truthy. -/
def optTruthy : Option String → Bool
  | none => false
  | some s => !(s == "")

/-- Embedding of JavaScript's string trim: drop leading and trailing
whitespace. -/
def jsTrim (s : String) : String :=
  ⟨((s.data.dropWhile Char.isWhitespace).reverse.dropWhile
      Char.isWhitespace).reverse⟩

/-- Tree assembly of fetchGroups: nest each subgroup under the group whose
id equals its group_id, each file under the subgroup whose id equals its
subgroup_id, and set every expansion flag to true. -/
def assemble (gs : List Group) (ss : List Subgroup) (fs : List File) :
    List GroupWithDetails :=
  gs.map fun g =>
    { toGroup := g
      isExpanded := true
      subgroups := (ss.filter fun sg => sg.group_id = g.id).map fun sg =>
        { toSubgroup := sg
          isExpanded := true
          files := fs.filter fun f => f.subgroup_id = sg.id } }

/-- fetchGroups (loadAll): guarded by the connectivity flag; on success
replaces the whole tree with the assembly of the fetched rows and clears the
error; on failure sets the error and re-probes connectivity.  Either way the
loading flag drops. -/
def fetchGroups (s : DashboardState)
    (resp : RemoteResult (List Group × List Subgroup × List File))
    (reconn : Bool) : DashboardState × List RemoteOp :=
  if s.isConnected then
    match resp with
    | .ok (gs, ss, fs) =>
        ({ s with groups := assemble gs ss fs, error := none,
                  isLoading := false },
         [.selectGroups, .selectSubgroups, .selectFiles])
    | .err =>
        ({ s with error := some "Erro ao carregar os dados",
                  isConnected := reconn, isLoading := false },
         [.selectGroups, .selectSubgroups, .selectFiles])
  else (s, [])

/-- Guard of handleCreateGroup: the name must be non-empty after trimming,
the session user must be present, the connection flag must be set. -/
def guardCreateGroup (s : DashboardState) : Bool :=
  !(jsTrim s.newGroupName == "") && optTruthy s.userId && s.isConnected

/-- handleCreateGroup: if the guard passes, send the insert; on success
append the returned record (with no subgroups, expanded) to the tree, clear
the name input and the error; on failure set the error and re-probe
connectivity. -/
def handleCreateGroup (s : DashboardState) (resp : RemoteResult Group)
    (reconn : Bool) : DashboardState × List RemoteOp :=
  if guardCreateGroup s then
    match resp with
    | .ok data =>
        ({ s with
            groups := s.groups ++
              [{ toGroup := data, subgroups := [], isExpanded := true }],
            newGroupName := "", error := none },
         [.insertGroup s.newGroupName (s.userId.getD "")])
    | .err =>
        ({ s with error := some "Erro ao criar grupo", isConnected := reconn },
         [.insertGroup s.newGroupName (s.userId.getD "")])
  else (s, [])

/-- Guard of handleCreateSubgroup: same shape as the group guard, over the
subgroup-name input. -/
def guardCreateSubgroup (s : DashboardState) : Bool :=
  !(jsTrim s.newSubgroupName == "") && optTruthy s.userId && s.isConnected

/-- handleCreateSubgroup: if the guard passes, send the insert with the
given parent group id; on success append the returned record under the
group whose id equals that argument (all other groups unchanged), reset the
subgroup form and clear the error; on failure set the error and re-probe
connectivity. -/
def handleCreateSubgroup (s : DashboardState) (groupId : String)
    (resp : RemoteResult Subgroup) (reconn : Bool) :
    DashboardState × List RemoteOp :=
  if guardCreateSubgroup s then
    match resp with
    | .ok data =>
        ({ s with
            groups := s.groups.map fun g =>
              if g.id = groupId then
                { g with subgroups := g.subgroups ++
                    [{ toSubgroup := data, files := [], isExpanded := true }] }
              else g,
            newSubgroupName := "", addingSubgroupTo := none, error := none },
         [.insertSubgroup s.newSubgroupName groupId (s.userId.getD "")])
    | .err =>
        ({ s with error := some "Erro ao criar subgrupo",
                  isConnected := reconn },
         [.insertSubgroup s.newSubgroupName groupId (s.userId.getD "")])
  else (s, [])

/-- Guard of handleAddFile: the selected subgroup, the file name, the file
link and the user id must all be truthy (no trimming happens here) and the
connection flag set. -/
def guardAddFile (s : DashboardState) : Bool :=
  optTruthy s.selectedSubgroup && !(s.newFileName == "") &&
    !(s.newFileLink == "") && optTruthy s.userId && s.isConnected

/-- handleAddFile: if the guard passes, send the insert with the selected
subgroup as parent; on success append the returned record to the files of
every subgroup whose id equals the selected one, reset both file inputs and
clear the error; on failure set the error and re-probe connectivity. -/
def handleAddFile (s : DashboardState) (resp : RemoteResult File)
    (reconn : Bool) : DashboardState × List RemoteOp :=
  if guardAddFile s then
    match resp with
    | .ok data =>
        ({ s with
            groups := s.groups.map fun g =>
              { g with subgroups := g.subgroups.map fun sg =>
                  if some sg.id = s.selectedSubgroup then
                    { sg with files := sg.files ++ [data] }
                  else sg },
            newFileName := "", newFileLink := "", error := none },
         [.insertFile s.newFileName s.newFileLink
            (s.selectedSubgroup.getD "") (s.userId.getD "")])
    | .err =>
        ({ s with error := some "Erro ao adicionar arquivo",
                  isConnected := reconn },
         [.insertFile s.newFileName s.newFileLink
            (s.selectedSubgroup.getD "") (s.userId.getD "")])
  else (s, [])

/-- handleDeleteGroup: guarded by the connectivity flag only; on success
filter the group out of the tree and, when the deleted id is the selected
group, clear both selections; clear the error.  On failure set the error and
re-probe connectivity. -/
def handleDeleteGroup (s : DashboardState) (groupId : String)
    (resp : RemoteResult Unit) (reconn : Bool) :
    DashboardState × List RemoteOp :=
  if s.isConnected then
    match resp with
    | .ok _ =>
        let s1 := { s with
          groups := s.groups.filter fun g => ¬ (g.id = groupId),
          error := none }
        (if s.selectedGroup = some groupId then
          { s1 with selectedGroup := none, selectedSubgroup := none }
        else s1,
         [.deleteGroup groupId])
    | .err =>
        ({ s with error := some "Erro ao deletar grupo",
                  isConnected := reconn },
         [.deleteGroup groupId])
  else (s, [])

/-- handleDeleteSubgroup: on success filter the subgroup out of every
group's children and, when the deleted id is the selected subgroup, clear
that selection; clear the error.  On failure set the error and re-probe
connectivity. -/
def handleDeleteSubgroup (s : DashboardState) (subgroupId : String)
    (resp : RemoteResult Unit) (reconn : Bool) :
    DashboardState × List RemoteOp :=
  if s.isConnected then
    match resp with
    | .ok _ =>
        let s1 := { s with
          groups := s.groups.map fun g =>
            { g with subgroups :=
                g.subgroups.filter fun sg => ¬ (sg.id = subgroupId) },
          error := none }
        (if s.selectedSubgroup = some subgroupId then
          { s1 with selectedSubgroup := none }
        else s1,
         [.deleteSubgroup subgroupId])
    | .err =>
        ({ s with error := some "Erro ao deletar subgrupo",
                  isConnected := reconn },
         [.deleteSubgroup subgroupId])
  else (s, [])

/-- handleDeleteFile: on success filter the file out of every subgroup's
children and clear the error; selection is untouched.  On failure set the
error and re-probe connectivity. -/
def handleDeleteFile (s : DashboardState) (fileId : String)
    (resp : RemoteResult Unit) (reconn : Bool) :
    DashboardState × List RemoteOp :=
  if s.isConnected then
    match resp with
    | .ok _ =>
        ({ s with
            groups := s.groups.map fun g =>
              { g with subgroups := g.subgroups.map fun sg =>
                  { sg with files := sg.files.filter fun f => ¬ (f.id = fileId) } },
            error := none },
         [.deleteFile fileId])
    | .err =>
        ({ s with error := some "Erro ao deletar arquivo",
                  isConnected := reconn },
         [.deleteFile fileId])
  else (s, [])

/-- toggleGroup: pure local flip of the targeted group's expansion flag; no
remote operation. -/
def toggleGroup (s : DashboardState) (groupId : String) :
    DashboardState × List RemoteOp :=
  ({ s with groups := s.groups.map fun g =>
      if g.id = groupId then { g with isExpanded := !g.isExpanded } else g },
   [])

/-- toggleSubgroup: pure local flip of the targeted subgroup's expansion
flag inside the targeted group; no remote operation. -/
def toggleSubgroup (s : DashboardState) (groupId subgroupId : String) :
    DashboardState × List RemoteOp :=
  ({ s with groups := s.groups.map fun g =>
      if g.id = groupId then
        { g with subgroups := g.subgroups.map fun sg =>
            if sg.id = subgroupId then { sg with isExpanded := !sg.isExpanded }
            else sg }
      else g },
   [])

/-! Concrete sample data used by counterexamples and witnesses. -/

/-- Sample group record. -/
def gRec : Group :=
  { id := "g1", name := "Docs", user_id := "u1", created_at := "2024-01-01" }

/-- Sample subgroup record, child of the sample group. -/
def sgRec : Subgroup :=
  { id := "s1", name := "2024", group_id := "g1", user_id := "u1",
    created_at := "2024-01-02" }

/-- Sample file record, child of the sample subgroup. -/
def fRec : File :=
  { id := "f1", name := "report.pdf", link := "https://x/y",
    subgroup_id := "s1", user_id := "u1", created_at := "2024-01-03" }

/-- A connected, logged-in state with an empty tree and blank forms. -/
def baseState : DashboardState :=
  { groups := [], newGroupName := "", selectedGroup := none,
    selectedSubgroup := none, newFileName := "", newFileLink := "",
    addingSubgroupTo := none, newSubgroupName := "", isLoading := false,
    error := none, userId := some "u1", copiedLink := none,
    isConnected := true }

/-- State holding the sample one-group, one-subgroup, one-file tree, with
the subgroup selected but no group selected. -/
def treeState : DashboardState :=
  { baseState with
    groups := [{ toGroup := gRec, isExpanded := true,
                 subgroups := [{ toSubgroup := sgRec, isExpanded := true,
                                 files := [fRec] }] }],
    selectedSubgroup := some "s1" }

/-- Mapping a function that fixes every element of a list is the
identity. -/
theorem map_fixed {α : Type} (f : α → α) (l : List α)
    (h : ∀ a ∈ l, f a = a) : l.map f = l := by
  induction l with
  | nil => rfl
  | cons a t ih =>
      simp only [List.map_cons, h a (List.mem_cons_self a t),
        ih fun b hb => h b (List.mem_cons_of_mem a hb)]

/-- State with the sample tree, the sample subgroup selected, a
whitespace-only file name and a valid link. -/
def blankNameState : DashboardState :=
  { treeState with newFileName := " ", newFileLink := "https://x/y" }

/-- State with the sample tree, the sample subgroup selected, and an
empty-string file name. -/
def emptyNameState : DashboardState :=
  { treeState with newFileName := "", newFileLink := "https://x/y" }

/-- Claim C2, counterexample: with a whitespace-only file name (truthy in
JavaScript, empty after trimming) and everything else valid, handleAddFile
does send the remote insert and, on success, changes the local tree —
refuting the claim that whitespace-only input is rejected locally. -/
theorem c2_counterexample :
    jsTrim blankNameState.newFileName = "" ∧
    (handleAddFile blankNameState (.ok fRec) true).2
      = [.insertFile " " "https://x/y" "s1" "u1"] ∧
    (handleAddFile blankNameState (.ok fRec) true).1.groups
      ≠ blankNameState.groups := by
  refine ⟨rfl, rfl, ?_⟩
  decide

/-- Claim C2, amended: handleAddFile is a local no-op (no remote call, no
state change) when the file name or the file link is the empty string; a
whitespace-only value passes the guard because the source tests only
JavaScript truthiness and never trims these inputs. -/
theorem c2_add_file_rejected_when_empty
    (s : DashboardState) (resp : RemoteResult File) (reconn : Bool)
    (h : s.newFileName = "" ∨ s.newFileLink = "") :
    handleAddFile s resp reconn = (s, []) := by
  unfold handleAddFile guardAddFile
  rcases h with h | h <;> simp [h]

/-- Witness for C2: the empty-name hypothesis holds at a concrete state and
the amended theorem applies there. -/
theorem c2_witness :
    (emptyNameState.newFileName = "" ∨ emptyNameState.newFileLink = "") ∧
    handleAddFile emptyNameState (.ok fRec) true = (emptyNameState, []) :=
  ⟨Or.inl rfl,
   c2_add_file_rejected_when_empty _ (.ok fRec) true (Or.inl rfl)⟩

/-- Claim C8: handleCreateGroup is a local no-op — identical state, no
remote operation — whenever the group name trims to empty, there is no
session user, or the connectivity flag is false. -/
theorem c8_create_group_noop
    (s : DashboardState) (resp : RemoteResult Group) (reconn : Bool)
    (h : jsTrim s.newGroupName = "" ∨ s.userId = none ∨
      s.isConnected = false) :
    handleCreateGroup s resp reconn = (s, []) := by
  unfold handleCreateGroup guardCreateGroup
  rcases h with h | h | h <;> simp [h, optTruthy]

/-- State with a whitespace-only group-name input. -/
def blankGroupNameState : DashboardState :=
  { baseState with newGroupName := "  " }

/-- Witness for C8: a concrete state whose group name trims to empty, on
which the theorem applies. -/
theorem c8_witness :
    (jsTrim blankGroupNameState.newGroupName = "" ∨
     blankGroupNameState.userId = none ∨
     blankGroupNameState.isConnected = false) ∧
    handleCreateGroup blankGroupNameState (.ok gRec) true
      = (blankGroupNameState, []) :=
  ⟨Or.inl rfl,
   c8_create_group_noop _ (.ok gRec) true (Or.inl rfl)⟩

/-- Claim C10: when no loaded group carries the given parent id but the
guard passes, handleCreateSubgroup still issues the remote insert, and on
success the local tree is exactly unchanged — the created subgroup is
attached nowhere. -/
theorem c10_create_subgroup_missing_parent
    (s : DashboardState) (groupId : String) (data : Subgroup) (reconn : Bool)
    (habs : ∀ g ∈ s.groups, g.id ≠ groupId)
    (hok : guardCreateSubgroup s = true) :
    (handleCreateSubgroup s groupId (.ok data) reconn).2
      = [.insertSubgroup s.newSubgroupName groupId (s.userId.getD "")] ∧
    (handleCreateSubgroup s groupId (.ok data) reconn).1.groups
      = s.groups := by
  unfold handleCreateSubgroup
  simp only [hok, if_true]
  refine ⟨by trivial, ?_⟩
  exact map_fixed _ _ fun g hg => by simp [habs g hg]

/-- State with an empty tree and a valid new-subgroup name. -/
def subgroupFormState : DashboardState :=
  { baseState with newSubgroupName := "2024" }

/-- Witness for C10: in the empty-tree state with a valid subgroup name,
both hypotheses hold concretely and the theorem applies. -/
theorem c10_witness :
    (∀ g ∈ subgroupFormState.groups, g.id ≠ "g9") ∧
    guardCreateSubgroup subgroupFormState = true ∧
    ((handleCreateSubgroup subgroupFormState "g9" (.ok sgRec) true).2
      = [.insertSubgroup "2024" "g9" "u1"] ∧
     (handleCreateSubgroup subgroupFormState "g9" (.ok sgRec) true).1.groups
      = subgroupFormState.groups) := by
  refine ⟨by decide, by decide, ?_⟩
  exact c10_create_subgroup_missing_parent _ "g9" sgRec true
    (by decide) (by decide)

/-- Claim C4: when the remote mutation fails (or the guard blocks it), each
insert and delete handler leaves the tree and every other field untouched,
updating at most the error message and the connectivity flag. -/
theorem c4_failure_only_touches_error_and_connectivity
    (s : DashboardState) (reconn : Bool) (gid sgid fid : String) :
    ((handleCreateGroup s .err reconn).1
      = { s with error := (handleCreateGroup s .err reconn).1.error,
                 isConnected := (handleCreateGroup s .err reconn).1.isConnected }) ∧
    ((handleCreateSubgroup s gid .err reconn).1
      = { s with error := (handleCreateSubgroup s gid .err reconn).1.error,
                 isConnected := (handleCreateSubgroup s gid .err reconn).1.isConnected }) ∧
    ((handleAddFile s .err reconn).1
      = { s with error := (handleAddFile s .err reconn).1.error,
                 isConnected := (handleAddFile s .err reconn).1.isConnected }) ∧
    ((handleDeleteGroup s gid .err reconn).1
      = { s with error := (handleDeleteGroup s gid .err reconn).1.error,
                 isConnected := (handleDeleteGroup s gid .err reconn).1.isConnected }) ∧
    ((handleDeleteSubgroup s sgid .err reconn).1
      = { s with error := (handleDeleteSubgroup s sgid .err reconn).1.error,
                 isConnected := (handleDeleteSubgroup s sgid .err reconn).1.isConnected }) ∧
    ((handleDeleteFile s fid .err reconn).1
      = { s with error := (handleDeleteFile s fid .err reconn).1.error,
                 isConnected := (handleDeleteFile s fid .err reconn).1.isConnected }) := by
  refine ⟨?_, ?_, ?_, ?_, ?_, ?_⟩ <;>
    first
    | (unfold handleCreateGroup; split <;> rfl)
    | (unfold handleCreateSubgroup; split <;> rfl)
    | (unfold handleAddFile; split <;> rfl)
    | (unfold handleDeleteGroup; split <;> rfl)
    | (unfold handleDeleteSubgroup; split <;> rfl)
    | (unfold handleDeleteFile; split <;> rfl)

/-- Postcondition of a successful handleDeleteGroup, as the code realizes
it: the targeted group (with its nested subtree) is gone, every other group
survives unchanged, and the selections are cleared exactly when the deleted
id was the selected group. -/
def deleteGroupOkPost (s : DashboardState) (groupId : String)
    (r : DashboardState) : Prop :=
  (∀ g ∈ r.groups, g.id ≠ groupId) ∧
  (∀ g ∈ r.groups, g ∈ s.groups) ∧
  (∀ g ∈ s.groups, g.id ≠ groupId → g ∈ r.groups) ∧
  (s.selectedGroup = some groupId →
    r.selectedGroup = none ∧ r.selectedSubgroup = none) ∧
  (s.selectedGroup ≠ some groupId →
    r.selectedGroup = s.selectedGroup ∧
    r.selectedSubgroup = s.selectedSubgroup)

/-- Claim C1, counterexample: in the sample tree the subgroup s1 is nested
under group g1 and is the selected subgroup while no group is selected;
deleting g1 succeeds, removes the whole tree — including s1 — yet the
selected subgroup still references s1, so a selection referencing a removed
id is not cleared. -/
theorem c1_counterexample :
    (∃ g ∈ treeState.groups, ∃ sg ∈ g.subgroups, sg.id = "s1") ∧
    treeState.selectedGroup = none ∧
    treeState.selectedSubgroup = some "s1" ∧
    (handleDeleteGroup treeState "g1" (.ok ()) true).1.groups = [] ∧
    (handleDeleteGroup treeState "g1" (.ok ()) true).1.selectedSubgroup
      = some "s1" := by
  decide

/-- Claim C1, amended: on remote success handleDeleteGroup removes the
targeted group and, with it, every subgroup and file nested under it, and
leaves every other group untouched; both selections are cleared when the
deleted id is the selected group, but otherwise both selections are left as
they were — a selected subgroup nested under the deleted group is not
cleared unless its ancestor was also the selected group. -/
theorem c1_delete_group_removes_subtree
    (s : DashboardState) (groupId : String) (reconn : Bool)
    (hc : s.isConnected = true) :
    deleteGroupOkPost s groupId
      (handleDeleteGroup s groupId (.ok ()) reconn).1 := by
  have hgroups : (handleDeleteGroup s groupId (.ok ()) reconn).1.groups
      = s.groups.filter fun g => ¬ (g.id = groupId) := by
    by_cases hsel : s.selectedGroup = some groupId <;>
      simp [handleDeleteGroup, hc, hsel]
  refine ⟨?_, ?_, ?_, ?_, ?_⟩
  · intro g hg
    rw [hgroups] at hg
    simpa using (List.mem_filter.mp hg).2
  · intro g hg
    rw [hgroups] at hg
    exact (List.mem_filter.mp hg).1
  · intro g hg hne
    rw [hgroups]
    exact List.mem_filter.mpr ⟨hg, by simpa using hne⟩
  · intro hsel
    constructor <;> simp [handleDeleteGroup, hc, hsel]
  · intro hsel
    constructor <;> simp [handleDeleteGroup, hc, hsel]

/-- Witness for C1: the connectivity hypothesis holds at the sample tree
state and the amended theorem applies there. -/
theorem c1_witness :
    treeState.isConnected = true ∧
    deleteGroupOkPost treeState "g1"
      (handleDeleteGroup treeState "g1" (.ok ()) true).1 :=
  ⟨rfl, c1_delete_group_removes_subtree treeState "g1" true rfl⟩

/-- Pointwise effect of toggleGroup on one tree node: the group record and
the nested subgroups are untouched and the expansion flag flips exactly on
an id match. -/
def togglePointwise (old new : GroupWithDetails) (groupId : String) : Prop :=
  new.toGroup = old.toGroup ∧ new.subgroups = old.subgroups ∧
  new.isExpanded =
    (if old.id = groupId then !old.isExpanded else old.isExpanded)

/-- Pointwise effect of toggleSubgroup on one tree node: the group record
and its own expansion flag are untouched, the subgroup list keeps its
length, and inside it every subgroup record and file list is untouched
while the expansion flag flips exactly on a double id match. -/
def toggleSubPointwise (old new : GroupWithDetails)
    (groupId subgroupId : String) : Prop :=
  new.toGroup = old.toGroup ∧ new.isExpanded = old.isExpanded ∧
  new.subgroups.length = old.subgroups.length ∧
  ∀ j (hj1 : j < old.subgroups.length) (hj2 : j < new.subgroups.length),
    (new.subgroups.get ⟨j, hj2⟩).toSubgroup
      = (old.subgroups.get ⟨j, hj1⟩).toSubgroup ∧
    (new.subgroups.get ⟨j, hj2⟩).files
      = (old.subgroups.get ⟨j, hj1⟩).files ∧
    (new.subgroups.get ⟨j, hj2⟩).isExpanded
      = (if old.id = groupId ∧ (old.subgroups.get ⟨j, hj1⟩).id = subgroupId
         then !(old.subgroups.get ⟨j, hj1⟩).isExpanded
         else (old.subgroups.get ⟨j, hj1⟩).isExpanded)

/-- Claim C7: toggleGroup and toggleSubgroup issue no remote operation,
change no state field other than the tree, and inside the tree flip exactly
the targeted node's expansion flag, leaving every record, child list and
other flag as it was. -/
theorem c7_toggle_is_local_frame
    (s : DashboardState) (groupId subgroupId : String) :
    ((toggleGroup s groupId).2 = [] ∧
     (toggleSubgroup s groupId subgroupId).2 = []) ∧
    ((toggleGroup s groupId).1
       = { s with groups := (toggleGroup s groupId).1.groups }) ∧
    ((toggleSubgroup s groupId subgroupId).1
       = { s with groups := (toggleSubgroup s groupId subgroupId).1.groups }) ∧
    ((toggleGroup s groupId).1.groups.length = s.groups.length) ∧
    ((toggleSubgroup s groupId subgroupId).1.groups.length
       = s.groups.length) ∧
    (∀ i (h1 : i < s.groups.length)
        (h2 : i < (toggleGroup s groupId).1.groups.length),
        togglePointwise (s.groups.get ⟨i, h1⟩)
          ((toggleGroup s groupId).1.groups.get ⟨i, h2⟩) groupId) ∧
    (∀ i (h1 : i < s.groups.length)
        (h2 : i < (toggleSubgroup s groupId subgroupId).1.groups.length),
        toggleSubPointwise (s.groups.get ⟨i, h1⟩)
          ((toggleSubgroup s groupId subgroupId).1.groups.get ⟨i, h2⟩)
          groupId subgroupId) := by
  refine ⟨⟨rfl, rfl⟩, rfl, rfl, by simp [toggleGroup],
    by simp [toggleSubgroup], ?_, ?_⟩
  · intro i h1 h2
    unfold toggleGroup togglePointwise
    simp only [List.get_eq_getElem, List.getElem_map]
    by_cases h : (s.groups.get ⟨i, h1⟩).id = groupId <;>
      simp [List.get_eq_getElem] at h ⊢ <;> simp [h]
  · intro i h1 h2
    unfold toggleSubgroup toggleSubPointwise
    simp only [List.get_eq_getElem, List.getElem_map]
    by_cases h : (s.groups.get ⟨i, h1⟩).id = groupId
    · simp only [List.get_eq_getElem] at h
      refine ⟨by simp [h], by simp [h], by simp [h], ?_⟩
      intro j hj1 hj2
      simp only [h, if_true, List.get_eq_getElem, List.getElem_map]
      by_cases hsg :
          (s.groups[i].subgroups.get ⟨j, hj1⟩).id = subgroupId <;>
        simp [List.get_eq_getElem] at hsg ⊢ <;> simp [hsg]
    · simp only [List.get_eq_getElem] at h
      refine ⟨by simp [h], by simp [h], by simp [h], ?_⟩
      intro j hj1 hj2
      simp [h]

/-- Witness for C7: at the sample tree the index bounds hold for the first
group and its first subgroup, and the theorem instantiates there. -/
theorem c7_witness :
    (0 < treeState.groups.length) ∧
    (0 < (toggleGroup treeState "g1").1.groups.length) ∧
    (0 < (toggleSubgroup treeState "g1" "s1").1.groups.length) ∧
    togglePointwise (treeState.groups.get ⟨0, by decide⟩)
      ((toggleGroup treeState "g1").1.groups.get ⟨0, by decide⟩) "g1" ∧
    toggleSubPointwise (treeState.groups.get ⟨0, by decide⟩)
      ((toggleSubgroup treeState "g1" "s1").1.groups.get ⟨0, by decide⟩)
      "g1" "s1" := by
  refine ⟨by decide, by decide, by decide, ?_, ?_⟩
  · exact (c7_toggle_is_local_frame treeState "g1" "s1").2.2.2.2.2.1
      0 (by decide) (by decide)
  · exact (c7_toggle_is_local_frame treeState "g1" "s1").2.2.2.2.2.2
      0 (by decide) (by decide)

/-- Claim C9: every successful operation — the load, each insert, each
delete — unconditionally resets the sticky error state to null, whatever
error an earlier operation had left. -/
theorem c9_success_clears_error
    (s : DashboardState) (reconn : Bool) (gid sgid fid : String)
    (rows : List Group × List Subgroup × List File)
    (g0 : Group) (sg0 : Subgroup) (f0 : File) :
    (s.isConnected = true →
      (fetchGroups s (.ok rows) reconn).1.error = none) ∧
    (guardCreateGroup s = true →
      (handleCreateGroup s (.ok g0) reconn).1.error = none) ∧
    (guardCreateSubgroup s = true →
      (handleCreateSubgroup s gid (.ok sg0) reconn).1.error = none) ∧
    (guardAddFile s = true →
      (handleAddFile s (.ok f0) reconn).1.error = none) ∧
    (s.isConnected = true →
      (handleDeleteGroup s gid (.ok ()) reconn).1.error = none) ∧
    (s.isConnected = true →
      (handleDeleteSubgroup s sgid (.ok ()) reconn).1.error = none) ∧
    (s.isConnected = true →
      (handleDeleteFile s fid (.ok ()) reconn).1.error = none) := by
  refine ⟨?_, ?_, ?_, ?_, ?_, ?_, ?_⟩ <;> intro h
  · simp [fetchGroups, h]
  · simp [handleCreateGroup, h]
  · simp [handleCreateSubgroup, h]
  · simp [handleAddFile, h]
  · by_cases hsel : s.selectedGroup = some gid <;>
      simp [handleDeleteGroup, h, hsel]
  · by_cases hsel : s.selectedSubgroup = some sgid <;>
      simp [handleDeleteSubgroup, h, hsel]
  · simp [handleDeleteFile, h]

/-- State carrying a sticky error from an earlier failed operation. -/
def erroredState : DashboardState :=
  { treeState with error := some "Erro ao criar grupo",
                   newGroupName := "Docs", newSubgroupName := "2024",
                   newFileName := "report.pdf", newFileLink := "https://x/y" }

/-- Witness for C9: every guard holds at a concrete errored state and each
successful operation clears its error there. -/
theorem c9_witness :
    erroredState.isConnected = true ∧
    guardCreateGroup erroredState = true ∧
    guardCreateSubgroup erroredState = true ∧
    guardAddFile erroredState = true ∧
    (fetchGroups erroredState (.ok ([gRec], [sgRec], [fRec])) true).1.error
      = none ∧
    (handleCreateGroup erroredState (.ok gRec) true).1.error = none ∧
    (handleCreateSubgroup erroredState "g1" (.ok sgRec) true).1.error
      = none ∧
    (handleAddFile erroredState (.ok fRec) true).1.error = none ∧
    (handleDeleteGroup erroredState "g1" (.ok ()) true).1.error = none ∧
    (handleDeleteSubgroup erroredState "s1" (.ok ()) true).1.error = none ∧
    (handleDeleteFile erroredState "f1" (.ok ()) true).1.error = none := by
  have h := c9_success_clears_error erroredState true "g1" "s1" "f1"
    ([gRec], [sgRec], [fRec]) gRec sgRec fRec
  exact ⟨rfl, by decide, by decide, by decide,
    h.1 rfl, h.2.1 (by decide), h.2.2.1 (by decide), h.2.2.2.1 (by decide),
    h.2.2.2.2.1 rfl, h.2.2.2.2.2.1 rfl, h.2.2.2.2.2.2 rfl⟩

/-- Claim C5: with the connection up, loading replaces the whole tree with
a deterministic function of the fetched rows — independently of the
previous tree —, loading again from the same rows yields the identical
tree, and every node comes out expanded. -/
theorem c5_load_all_idempotent
    (s : DashboardState) (gs : List Group) (ss : List Subgroup)
    (fs : List File) (r1 r2 : Bool)
    (hc : s.isConnected = true) :
    ((fetchGroups s (.ok (gs, ss, fs)) r1).1.groups = assemble gs ss fs) ∧
    ((fetchGroups (fetchGroups s (.ok (gs, ss, fs)) r1).1
        (.ok (gs, ss, fs)) r2).1.groups
      = (fetchGroups s (.ok (gs, ss, fs)) r1).1.groups) ∧
    (∀ g ∈ (fetchGroups s (.ok (gs, ss, fs)) r1).1.groups,
      g.isExpanded = true ∧ ∀ sg ∈ g.subgroups, sg.isExpanded = true) := by
  have h1 : (fetchGroups s (.ok (gs, ss, fs)) r1).1
      = { s with groups := assemble gs ss fs, error := none,
                 isLoading := false } := by
    simp [fetchGroups, hc]
  refine ⟨by rw [h1], ?_, ?_⟩
  · rw [h1]
    simp [fetchGroups, hc]
  · rw [h1]
    intro g hg
    simp only [assemble, List.mem_map] at hg
    obtain ⟨gx, hgx, rfl⟩ := hg
    refine ⟨rfl, ?_⟩
    intro sg hsg
    simp only [List.mem_map] at hsg
    obtain ⟨sgx, hsgx, rfl⟩ := hsg
    rfl

/-- Witness for C5: the connectivity hypothesis holds at the base state and
the theorem applies on the sample rows. -/
theorem c5_witness :
    baseState.isConnected = true ∧
    (((fetchGroups baseState (.ok ([gRec], [sgRec], [fRec])) true).1.groups
        = assemble [gRec] [sgRec] [fRec]) ∧
     ((fetchGroups (fetchGroups baseState
          (.ok ([gRec], [sgRec], [fRec])) true).1
          (.ok ([gRec], [sgRec], [fRec])) true).1.groups
        = (fetchGroups baseState
            (.ok ([gRec], [sgRec], [fRec])) true).1.groups) ∧
     (∀ g ∈ (fetchGroups baseState
          (.ok ([gRec], [sgRec], [fRec])) true).1.groups,
        g.isExpanded = true ∧ ∀ sg ∈ g.subgroups, sg.isExpanded = true)) :=
  ⟨rfl, c5_load_all_idempotent baseState [gRec] [sgRec] [fRec] true true rfl⟩

/-- Well-formedness of the local tree: every nested subgroup's group_id is
the id of its enclosing group and every nested file's subgroup_id is the id
of its enclosing subgroup. -/
def treeWellFormed (gl : List GroupWithDetails) : Prop :=
  ∀ g ∈ gl, ∀ sg ∈ g.subgroups,
    sg.group_id = g.id ∧ ∀ f ∈ sg.files, f.subgroup_id = sg.id

/-- Claim C3: assembly nests every child under the parent its reference
names and drops orphaned subgroups and files entirely, and each create
handler preserves well-formedness given that the remote echoes the parent
id it was sent — so every tree reachable by loads and creates resolves
every parent reference to its enclosing parent. -/
theorem c3_nesting_matches_parent_ids :
    (∀ gs ss fs, treeWellFormed (assemble gs ss fs)) ∧
    (∀ gs ss fs (sg : Subgroup), sg.group_id ∉ gs.map Group.id →
      ∀ g ∈ assemble gs ss fs, ∀ sgd ∈ g.subgroups,
        sgd.toSubgroup ≠ sg) ∧
    (∀ gs ss fs (f : File), f.subgroup_id ∉ ss.map Subgroup.id →
      ∀ g ∈ assemble gs ss fs, ∀ sgd ∈ g.subgroups, f ∉ sgd.files) ∧
    (∀ s (data : Group) reconn, treeWellFormed s.groups →
      treeWellFormed (handleCreateGroup s (.ok data) reconn).1.groups) ∧
    (∀ s gid (data : Subgroup) reconn, treeWellFormed s.groups →
      data.group_id = gid →
      treeWellFormed
        (handleCreateSubgroup s gid (.ok data) reconn).1.groups) ∧
    (∀ s (data : File) reconn, treeWellFormed s.groups →
      s.selectedSubgroup = some data.subgroup_id →
      treeWellFormed (handleAddFile s (.ok data) reconn).1.groups) := by
  refine ⟨?_, ?_, ?_, ?_, ?_, ?_⟩
  · intro gs ss fs g hg sg hsg
    simp only [assemble, List.mem_map] at hg
    obtain ⟨gx, hgx, rfl⟩ := hg
    simp only [List.mem_map, List.mem_filter] at hsg
    obtain ⟨sgx, ⟨hmem, hid⟩, rfl⟩ := hsg
    refine ⟨by simpa using hid, ?_⟩
    intro f hf
    simp only [List.mem_filter] at hf
    simpa using hf.2
  · intro gs ss fs sg hnot g hg sgd hsgd
    simp only [assemble, List.mem_map] at hg
    obtain ⟨gx, hgx, rfl⟩ := hg
    simp only [List.mem_map, List.mem_filter] at hsgd
    obtain ⟨sgx, ⟨hmem, hid⟩, rfl⟩ := hsgd
    intro hEq
    apply hnot
    have hgid : sgx.group_id = gx.id := by simpa using hid
    have hsgx : sgx = sg := hEq
    rw [← hsgx, hgid, List.mem_map]
    exact ⟨gx, hgx, rfl⟩
  · intro gs ss fs f hnot g hg sgd hsgd
    simp only [assemble, List.mem_map] at hg
    obtain ⟨gx, hgx, rfl⟩ := hg
    simp only [List.mem_map, List.mem_filter] at hsgd
    obtain ⟨sgx, ⟨hmem, hid⟩, rfl⟩ := hsgd
    intro hf
    apply hnot
    have hfid : f.subgroup_id = sgx.id := by
      have := (List.mem_filter.mp hf).2
      simpa using this
    rw [hfid, List.mem_map]
    exact ⟨sgx, hmem, rfl⟩
  · intro s data reconn hwf g hg sg hsg
    by_cases hguard : guardCreateGroup s = true
    · simp only [handleCreateGroup, hguard, if_true] at hg
      rw [List.mem_append] at hg
      rcases hg with hg | hg
      · exact hwf g hg sg hsg
      · rw [List.mem_singleton] at hg
        subst hg
        simp at hsg
    · simp [handleCreateGroup, hguard] at hg
      exact hwf g hg sg hsg
  · intro s gid data reconn hwf hecho g hg sg hsg
    by_cases hguard : guardCreateSubgroup s = true
    · simp only [handleCreateSubgroup, hguard, if_true, List.mem_map] at hg
      obtain ⟨gx, hgx, rfl⟩ := hg
      by_cases hid : gx.id = gid
      · rw [if_pos hid] at hsg ⊢
        rw [List.mem_append] at hsg
        rcases hsg with hsg | hsg
        · have := hwf gx hgx sg hsg
          simpa using this
        · rw [List.mem_singleton] at hsg
          subst hsg
          refine ⟨?_, by simp⟩
          show data.group_id = gx.id
          rw [hecho, hid]
      · rw [if_neg hid] at hsg ⊢
        exact hwf gx hgx sg hsg
    · simp [handleCreateSubgroup, hguard] at hg
      exact hwf g hg sg hsg
  · intro s data reconn hwf hsel g hg sg hsg
    by_cases hguard : guardAddFile s = true
    · simp only [handleAddFile, hguard, if_true, List.mem_map] at hg
      obtain ⟨gx, hgx, rfl⟩ := hg
      simp only [List.mem_map] at hsg
      obtain ⟨sgx, hsgx, rfl⟩ := hsg
      have hold := hwf gx hgx sgx hsgx
      by_cases hid : some sgx.id = s.selectedSubgroup
      · rw [if_pos hid]
        refine ⟨by simpa using hold.1, ?_⟩
        intro f hf
        rw [List.mem_append] at hf
        rcases hf with hf | hf
        · simpa using hold.2 f hf
        · rw [List.mem_singleton] at hf
          subst hf
          have : some sgx.id = some f.subgroup_id := by
            rw [hid, hsel]
          show f.subgroup_id = sgx.id
          exact (Option.some.inj this).symm
      · rw [if_neg hid]
        exact ⟨by simpa using hold.1, fun f hf => by simpa using hold.2 f hf⟩
    · simp [handleAddFile, hguard] at hg
      exact hwf g hg sg hsg

/-- Subgroup row whose parent group is not among the fetched groups. -/
def sgOrphan : Subgroup :=
  { id := "s9", name := "orphan", group_id := "gX", user_id := "u1",
    created_at := "2024-02-01" }

/-- File row whose parent subgroup is not among the fetched subgroups. -/
def fOrphan : File :=
  { id := "f9", name := "lost.pdf", link := "https://x/z",
    subgroup_id := "sX", user_id := "u1", created_at := "2024-02-02" }

/-- Witness for C3: each conjunct of the theorem instantiated on concrete
data, with its hypotheses discharged there. -/
theorem c3_witness :
    treeWellFormed (assemble [gRec] [sgRec] [fRec]) ∧
    (sgOrphan.group_id ∉ [gRec].map Group.id ∧
      ∀ g ∈ assemble [gRec] [sgOrphan] [fRec], ∀ sgd ∈ g.subgroups,
        sgd.toSubgroup ≠ sgOrphan) ∧
    (fOrphan.subgroup_id ∉ [sgRec].map Subgroup.id ∧
      ∀ g ∈ assemble [gRec] [sgRec] [fOrphan], ∀ sgd ∈ g.subgroups,
        fOrphan ∉ sgd.files) ∧
    (treeWellFormed erroredState.groups ∧
      treeWellFormed
        (handleCreateGroup erroredState (.ok gRec) true).1.groups) ∧
    (sgRec.group_id = "g1" ∧
      treeWellFormed
        (handleCreateSubgroup erroredState "g1" (.ok sgRec) true).1.groups) ∧
    (erroredState.selectedSubgroup = some fRec.subgroup_id ∧
      treeWellFormed
        (handleAddFile erroredState (.ok fRec) true).1.groups) := by
  have h := c3_nesting_matches_parent_ids
  refine ⟨h.1 [gRec] [sgRec] [fRec],
    ⟨by decide, h.2.1 [gRec] [sgOrphan] [fRec] sgOrphan (by decide)⟩,
    ⟨by decide, h.2.2.1 [gRec] [sgRec] [fOrphan] fOrphan (by decide)⟩,
    ⟨by unfold treeWellFormed; decide,
      h.2.2.2.1 erroredState gRec true (by unfold treeWellFormed; decide)⟩,
    ⟨rfl, h.2.2.2.2.1 erroredState "g1" sgRec true
      (by unfold treeWellFormed; decide) rfl⟩,
    ⟨rfl, h.2.2.2.2.2 erroredState fRec true
      (by unfold treeWellFormed; decide) rfl⟩⟩

/-- Structural lexicographic comparison of character lists. -/
def charsLe : List Char → List Char → Bool
  | [], _ => true
  | _ :: _, [] => false
  | a :: as, b :: bs => if a = b then charsLe as bs else decide (a < b)

/-- Ascending order on creation timestamps, modelling the remote
order-by-created_at comparison on the timestamp strings. -/
def createdLe (a b : String) : Prop := charsLe a.data b.data = true

/-- Pointwise effect of a successful handleCreateSubgroup on one tree node:
on an id match the new child is appended after the existing children, which
are kept verbatim; otherwise the node is untouched. -/
def appendSubgroupPointwise (old new : GroupWithDetails) (gid : String)
    (data : Subgroup) : Prop :=
  (old.id = gid →
    new.toGroup = old.toGroup ∧ new.isExpanded = old.isExpanded ∧
    new.subgroups = old.subgroups ++
      [{ toSubgroup := data, files := [], isExpanded := true }]) ∧
  (old.id ≠ gid → new = old)

/-- Pointwise effect of a successful handleAddFile on one tree node: every
group survives with its record and flag, and inside it each subgroup either
matches the selection and gets the new file appended after its existing
files, kept verbatim, or is untouched. -/
def appendFilePointwise (old new : GroupWithDetails) (sel : Option String)
    (data : File) : Prop :=
  new.toGroup = old.toGroup ∧ new.isExpanded = old.isExpanded ∧
  new.subgroups.length = old.subgroups.length ∧
  ∀ j (hj1 : j < old.subgroups.length) (hj2 : j < new.subgroups.length),
    (some (old.subgroups.get ⟨j, hj1⟩).id = sel →
      (new.subgroups.get ⟨j, hj2⟩).toSubgroup
        = (old.subgroups.get ⟨j, hj1⟩).toSubgroup ∧
      (new.subgroups.get ⟨j, hj2⟩).isExpanded
        = (old.subgroups.get ⟨j, hj1⟩).isExpanded ∧
      (new.subgroups.get ⟨j, hj2⟩).files
        = (old.subgroups.get ⟨j, hj1⟩).files ++ [data]) ∧
    (¬ some (old.subgroups.get ⟨j, hj1⟩).id = sel →
      new.subgroups.get ⟨j, hj2⟩ = old.subgroups.get ⟨j, hj1⟩)

/-- Claim C6: assembly preserves the fetch order at every level — when the
fetched rows arrive ascending by creation time, so is every children
sequence of the tree — and each successful create appends the new record
after its parent's existing children, which are never re-sorted. -/
theorem c6_children_in_fetch_order :
    (∀ gs ss fs,
      gs.Pairwise (fun a b => createdLe a.created_at b.created_at) →
      ss.Pairwise (fun a b => createdLe a.created_at b.created_at) →
      fs.Pairwise (fun a b => createdLe a.created_at b.created_at) →
      (assemble gs ss fs).Pairwise
          (fun a b => createdLe a.created_at b.created_at) ∧
      ∀ g ∈ assemble gs ss fs,
        g.subgroups.Pairwise
            (fun a b => createdLe a.created_at b.created_at) ∧
        ∀ sg ∈ g.subgroups,
          sg.files.Pairwise
            (fun a b => createdLe a.created_at b.created_at)) ∧
    (∀ s (data : Group) reconn, guardCreateGroup s = true →
      (handleCreateGroup s (.ok data) reconn).1.groups
        = s.groups ++
          [{ toGroup := data, subgroups := [], isExpanded := true }]) ∧
    (∀ s gid (data : Subgroup) reconn, guardCreateSubgroup s = true →
      (handleCreateSubgroup s gid (.ok data) reconn).1.groups.length
        = s.groups.length ∧
      ∀ i (h1 : i < s.groups.length)
          (h2 : i <
            (handleCreateSubgroup s gid (.ok data) reconn).1.groups.length),
        appendSubgroupPointwise (s.groups.get ⟨i, h1⟩)
          ((handleCreateSubgroup s gid (.ok data) reconn).1.groups.get
            ⟨i, h2⟩) gid data) ∧
    (∀ s (data : File) reconn, guardAddFile s = true →
      (handleAddFile s (.ok data) reconn).1.groups.length
        = s.groups.length ∧
      ∀ i (h1 : i < s.groups.length)
          (h2 : i < (handleAddFile s (.ok data) reconn).1.groups.length),
        appendFilePointwise (s.groups.get ⟨i, h1⟩)
          ((handleAddFile s (.ok data) reconn).1.groups.get ⟨i, h2⟩)
          s.selectedSubgroup data) := by
  refine ⟨?_, ?_, ?_, ?_⟩
  · intro gs ss fs hgs hss hfs
    constructor
    · unfold assemble
      rw [List.pairwise_map]
      exact hgs.imp fun h => h
    · intro g hg
      simp only [assemble, List.mem_map] at hg
      obtain ⟨gx, hgx, rfl⟩ := hg
      constructor
      · rw [List.pairwise_map]
        exact (hss.filter _).imp fun h => h
      · intro sg hsg
        simp only [List.mem_map] at hsg
        obtain ⟨sgx, hsgx, rfl⟩ := hsg
        exact (hfs.filter _).imp fun h => h
  · intro s data reconn hguard
    simp [handleCreateGroup, hguard]
  · intro s gid data reconn hguard
    have hgroups : (handleCreateSubgroup s gid (.ok data) reconn).1.groups
        = s.groups.map fun g =>
            if g.id = gid then
              { g with subgroups := g.subgroups ++
                  [{ toSubgroup := data, files := [], isExpanded := true }] }
            else g := by
      simp [handleCreateSubgroup, hguard]
    refine ⟨by rw [hgroups]; simp, ?_⟩
    intro i h1 h2
    unfold appendSubgroupPointwise
    have hget := List.getElem_of_eq hgroups h2
    simp only [List.get_eq_getElem]
    rw [hget, List.getElem_map]
    by_cases hid : (s.groups[i].id = gid)
    · rw [if_pos hid]
      exact ⟨fun _ => ⟨rfl, rfl, rfl⟩, fun hne => absurd hid hne⟩
    · rw [if_neg hid]
      exact ⟨fun h => absurd h hid, fun _ => rfl⟩
  · intro s data reconn hguard
    have hgroups : (handleAddFile s (.ok data) reconn).1.groups
        = s.groups.map fun g =>
            { g with subgroups := g.subgroups.map fun sg =>
                if some sg.id = s.selectedSubgroup then
                  { sg with files := sg.files ++ [data] }
                else sg } := by
      simp [handleAddFile, hguard]
    refine ⟨by rw [hgroups]; simp, ?_⟩
    intro i h1 h2
    unfold appendFilePointwise
    have hget := List.getElem_of_eq hgroups h2
    simp only [List.get_eq_getElem]
    rw [hget, List.getElem_map]
    refine ⟨rfl, rfl, by simp, ?_⟩
    intro j hj1 hj2
    simp only [List.get_eq_getElem] at hj2 ⊢
    rw [List.getElem_map]
    by_cases hid : some (s.groups[i].subgroups[j].id) = s.selectedSubgroup
    · rw [if_pos hid]
      exact ⟨fun _ => ⟨rfl, rfl, rfl⟩, fun hne => absurd hid hne⟩
    · rw [if_neg hid]
      exact ⟨fun h => absurd h hid, fun _ => rfl⟩

/-- Witness for C6: the sample rows are pairwise ascending and the guards
hold at the errored sample state, so every conjunct instantiates there,
with the pointwise parts taken at the first group and first subgroup. -/
theorem c6_witness :
    ([gRec].Pairwise (fun a b => createdLe a.created_at b.created_at) ∧
     [sgRec].Pairwise (fun a b => createdLe a.created_at b.created_at) ∧
     [fRec].Pairwise (fun a b => createdLe a.created_at b.created_at) ∧
     (assemble [gRec] [sgRec] [fRec]).Pairwise
       (fun a b => createdLe a.created_at b.created_at)) ∧
    (guardCreateGroup erroredState = true ∧
     (handleCreateGroup erroredState (.ok gRec) true).1.groups
       = erroredState.groups ++
         [{ toGroup := gRec, subgroups := [], isExpanded := true }]) ∧
    (guardCreateSubgroup erroredState = true ∧
     0 < erroredState.groups.length ∧
     0 < (handleCreateSubgroup erroredState "g1"
            (.ok sgRec) true).1.groups.length ∧
     appendSubgroupPointwise (erroredState.groups.get ⟨0, by decide⟩)
       ((handleCreateSubgroup erroredState "g1"
          (.ok sgRec) true).1.groups.get ⟨0, by decide⟩) "g1" sgRec) ∧
    (guardAddFile erroredState = true ∧
     appendFilePointwise (erroredState.groups.get ⟨0, by decide⟩)
       ((handleAddFile erroredState (.ok fRec) true).1.groups.get
          ⟨0, by decide⟩)
       erroredState.selectedSubgroup fRec) := by
  have h := c6_children_in_fetch_order
  refine ⟨⟨?_, ?_, ?_, ?_⟩, ⟨by decide, ?_⟩, ⟨by decide, by decide, ?_, ?_⟩,
    ⟨by decide, ?_⟩⟩
  · simp
  · simp
  · simp
  · exact (h.1 [gRec] [sgRec] [fRec] (by simp) (by simp) (by simp)).1
  · exact h.2.1 erroredState gRec true (by decide)
  · exact (h.2.2.1 erroredState "g1" sgRec true (by decide)).1 ▸ (by decide)
  · exact (h.2.2.1 erroredState "g1" sgRec true (by decide)).2
      0 (by decide) (by decide)
  · exact (h.2.2.2 erroredState fRec true (by decide)).2
      0 (by decide) (by decide)

end Valesis
